import Mathlib

/-!
Verification of the lattice pattern generator of `helper/pattern.py`
(repository pDesigns).

The generator builds a grid of placement points (`create_pattern`,
lines 33-45), recenters it on its arithmetic mean (lines 47-50),
instantiates a motif at every point via the CAD kernel, and
boolean-combines the union with a clipping frame (lines 52-68).  Named
builders (`honeycomb`, `diamond`, `star`, `plus`, `slot`, `square`)
construct the unit motif and the per-shape spacing, and
`generate_pattern` dispatches on a string key (lines 246-261).

The point arithmetic is embedded polymorphically over a linear ordered
field with a floor (Python evaluates it in IEEE floats; we reason in
exact arithmetic), instantiated at ℚ for executable checks and at ℝ for
the named builders, which use square roots and trigonometry.  The CAD
kernel (cadquery) is external to the repository: its calls are embedded
as a deep term algebra `Shape`, and for the boolean-duality property its
`cut`/`intersect`/union-of-placements are given the standard point-set
semantics.
-/

namespace PDesigns

section Lattice

variable {α : Type} [LinearOrderedField α] [FloorRing α]

/-- Column count of `create_pattern` (pattern.py line 35):
`cols = int(x_lim // x_space) + 2`.  Python `//` on floats is the floor
of the quotient, so in exact arithmetic this is `⌊x_lim / x_space⌋ + 2`. -/
def cols (x_lim x_space : α) : ℤ := ⌊x_lim / x_space⌋ + 2

/-- Row count of `create_pattern` (pattern.py line 36):
`rows = int(y_lim // y_space) + 2`. -/
def rows (y_lim y_space : α) : ℤ := ⌊y_lim / y_space⌋ + 2

/-- One raw lattice point (pattern.py lines 40-45): `x_pos = col * x_space`,
`y_pos = row * y_space`, and `y_pos += y_space / 2` when `col % 2 == 1`
and `odd_row_shift` holds. -/
def rawPoint (x_space y_space : α) (odd_row_shift : Bool) (col row : ℕ) : α × α :=
  let x_pos : α := (col : α) * x_space
  let y_pos : α := (row : α) * y_space
  if col % 2 = 1 ∧ odd_row_shift = true then (x_pos, y_pos + y_space / 2)
  else (x_pos, y_pos)

/-- The inner loop of `create_pattern` for a fixed column (pattern.py
lines 39-45): the points of column `col`, rows `0 .. rows-1`, in order. -/
def colBlock (y_lim x_space y_space : α) (odd_row_shift : Bool) (col : ℕ) :
    List (α × α) :=
  (List.range (rows y_lim y_space).toNat).map
    (fun row => rawPoint x_space y_space odd_row_shift col row)

/-- `raw_points` of `create_pattern` (pattern.py lines 33-45): the nested
loop `for col in range(cols): for row in range(rows): ... append(...)`,
flattened in order (Python `range` of a non-positive count is empty,
matching `Int.toNat`). -/
def raw_points (x_lim y_lim x_space y_space : α) (odd_row_shift : Bool) :
    List (α × α) :=
  ((List.range (cols x_lim x_space).toNat).map
    (fun col => colBlock y_lim x_space y_space odd_row_shift col)).flatten

/-- `avg_x` of `create_pattern` (pattern.py line 48):
`sum(p[0] for p in raw_points) / len(raw_points)`.  On an empty list the
exact-arithmetic value is the junk `0 / 0 = 0`, where Python raises
`ZeroDivisionError`. -/
def avg_x (pts : List (α × α)) : α := (pts.map Prod.fst).sum / pts.length

/-- `avg_y` of `create_pattern` (pattern.py line 49). -/
def avg_y (pts : List (α × α)) : α := (pts.map Prod.snd).sum / pts.length

/-- `centered_points` of `create_pattern` (pattern.py line 50):
`[(p[0] - avg_x, p[1] - avg_y) for p in raw_points]`. -/
def centered_points (x_lim y_lim x_space y_space : α) (odd_row_shift : Bool) :
    List (α × α) :=
  let pts := raw_points x_lim y_lim x_space y_space odd_row_shift
  pts.map (fun p => (p.1 - avg_x pts, p.2 - avg_y pts))

/-- Arithmetic mean of a point list, componentwise, exactly as computed in
pattern.py lines 48-49. -/
def centroid (pts : List (α × α)) : α × α := (avg_x pts, avg_y pts)

end Lattice

section LatticeLemmas

variable {α : Type} [LinearOrderedField α] [FloorRing α]

lemma raw_points_length (x_lim y_lim x_space y_space : α) (sh : Bool) :
    (raw_points x_lim y_lim x_space y_space sh).length
      = (cols x_lim x_space).toNat * (rows y_lim y_space).toNat := by
  unfold raw_points colBlock
  rw [List.length_flatten, List.map_map]
  have : (List.length ∘ fun col =>
      (List.range (rows y_lim y_space).toNat).map
        (fun row => rawPoint x_space y_space sh col row))
      = fun _ : ℕ => (rows y_lim y_space).toNat := by
    funext col
    simp
  rw [this, List.map_const', List.sum_replicate, List.length_range, smul_eq_mul]

lemma flatten_getD_const {β : Type} (L : List (List β)) (n : ℕ) (d : β)
    (hlen : ∀ l ∈ L, l.length = n) :
    ∀ i j : ℕ, i < L.length → j < n →
      L.flatten.getD (i * n + j) d = (L.getD i []).getD j d := by
  induction L with
  | nil => intro i j hi _; simp at hi
  | cons a L ih =>
    intro i j hi hj
    have ha : a.length = n := hlen a (List.mem_cons_self a L)
    cases i with
    | zero =>
      simp only [List.flatten_cons, List.getD_eq_getElem?_getD, zero_mul, zero_add]
      rw [List.getElem?_append_left (by omega)]
      simp
    | succ k =>
      have hk : k < L.length := by simpa using hi
      have hexp : (k + 1) * n = k * n + n := by ring
      have hge : a.length ≤ (k + 1) * n + j := by rw [ha, hexp]; omega
      have hmain : (a ++ L.flatten).getD ((k + 1) * n + j) d
          = L.flatten.getD (k * n + j) d := by
        simp only [List.getD_eq_getElem?_getD]
        rw [List.getElem?_append_right hge, ha, hexp]
        congr 2
        omega
      rw [List.flatten_cons, hmain, ih (fun l hl => hlen l (List.mem_cons_of_mem a hl)) k j hk hj]
      simp

omit [FloorRing α] in
lemma sum_map_sub_const (l : List α) (a : α) :
    (l.map (fun x => x - a)).sum = l.sum - l.length * a := by
  induction l with
  | nil => simp
  | cons b l ih =>
    simp only [List.map_cons, List.sum_cons, ih, List.length_cons]
    push_cast
    ring

lemma cols_nonneg_bound (x_lim x_space : α) (hx : 0 ≤ x_lim) (hs : 0 < x_space) :
    2 ≤ cols x_lim x_space := by
  have h0 : (0 : ℤ) ≤ ⌊x_lim / x_space⌋ :=
    Int.floor_nonneg.mpr (div_nonneg hx (le_of_lt hs))
  unfold cols
  omega

end LatticeLemmas

section Combine

/-- The union of per-point placed copies of the motif produced by
`pushPoints(centered_points).eachpoint(lambda loc: object.val().located(loc),
combine=True)` (pattern.py lines 57-61), in point-set semantics: each copy
is the motif translated in-plane by the placement offset. -/
def placedUnion (motif : Set (ℝ × ℝ × ℝ)) (points : List (ℝ × ℝ)) :
    Set (ℝ × ℝ × ℝ) :=
  { q | ∃ p ∈ points, ∃ m ∈ motif, q = (m.1 + p.1, m.2.1 + p.2, m.2.2) }

/-- The boolean-combine tail of `create_pattern` (pattern.py lines 52-68)
in point-set semantics: `cut_frame.cut(result)` when `invert` is set,
`cut_frame.intersect(result)` otherwise, where `result` is the union of
the placed motif copies. -/
def place_and_combine (motif : Set (ℝ × ℝ × ℝ)) (points : List (ℝ × ℝ))
    (cut_frame : Set (ℝ × ℝ × ℝ)) (invert : Bool) : Set (ℝ × ℝ × ℝ) :=
  if invert then cut_frame \ placedUnion motif points
  else cut_frame ∩ placedUnion motif points

end Combine

section Builders

/-- Deep embedding of the cadquery Workplane calls issued by
`helper/pattern.py`: each constructor records one kernel operation with
the arguments the source passes (the kernel itself is external to the
repository and treated as an opaque solid algebra).  `placed` records
`pushPoints(points).eachpoint(located, combine=True)`. -/
inductive Shape : Type where
  | box : ℝ → ℝ → ℝ → Shape
  | polygon : ℕ → ℝ → Shape
  | circle : ℝ → Shape
  | polyline : List (ℝ × ℝ) → Shape
  | close : Shape → Shape
  | slot2D : ℝ → ℝ → ℝ → Shape
  | extrude : Shape → ℝ → Shape
  | rotate : Shape → (ℝ × ℝ × ℝ) → (ℝ × ℝ × ℝ) → ℝ → Shape
  | translate : Shape → (ℝ × ℝ × ℝ) → Shape
  | union : Shape → Shape → Shape
  | cut : Shape → Shape → Shape
  | intersect : Shape → Shape → Shape
  | placed : Shape → List (ℝ × ℝ) → Shape

/-- `create_pattern` (pattern.py lines 19-68): generate the lattice,
recenter it, place the motif at every centered point, and cut or
intersect the union against the `box(x_lim, y_lim, depth * 2)` frame. -/
noncomputable def create_pattern (object : Shape) (size : ℝ × ℝ) (depth x_space y_space : ℝ)
    (odd_row_shift : Bool) (invert : Bool) : Shape :=
  let x_lim := size.1
  let y_lim := size.2
  let pts := centered_points x_lim y_lim x_space y_space odd_row_shift
  let cut_frame := Shape.box x_lim y_lim (depth * 2)
  let result := Shape.placed object pts
  if invert then Shape.cut cut_frame result else Shape.intersect cut_frame result

/-- Hexagon motif of `honeycomb` (pattern.py lines 87-96): the radius is
shrunk so adjacent hexagons sit `distance` apart, then
`polygon(6, 2 * actual_r)` is rotated by 90° and extruded. -/
noncomputable def honeycomb_motif (radius depth distance : ℝ) : Shape :=
  let dist_to_flat := radius * Real.sqrt 3 / 2 - distance / 2
  let actual_r := dist_to_flat / (Real.sqrt 3 / 2)
  Shape.extrude (Shape.rotate (Shape.polygon 6 (2 * actual_r)) (0, 0, 0) (0, 0, 1) 90) depth

/-- Lattice x-spacing of `honeycomb` (pattern.py line 99): `x = 1.5 * radius`. -/
noncomputable def honeycomb_x_space (radius : ℝ) : ℝ := 1.5 * radius

/-- Lattice y-spacing of `honeycomb` (pattern.py line 100):
`y = math.sqrt(3) * radius`. -/
noncomputable def honeycomb_y_space (radius : ℝ) : ℝ := Real.sqrt 3 * radius

/-- `honeycomb` builder (pattern.py lines 71-106). -/
noncomputable def honeycomb (size : ℝ × ℝ) (radius depth distance : ℝ)
    (rotation : (ℝ × ℝ × ℝ) × (ℝ × ℝ × ℝ) × ℝ) (translation : ℝ × ℝ × ℝ)
    (invert : Bool) : Shape :=
  let result := honeycomb_motif radius depth distance
  let result := create_pattern result size depth (honeycomb_x_space radius)
    (honeycomb_y_space radius) true invert
  let result := Shape.rotate result rotation.1 rotation.2.1 rotation.2.2
  Shape.translate result translation

/-- `diamond` builder (pattern.py lines 109-159): an annulus motif built
from four offset circles subtracted from a smaller disk, tiled with
`x = radius - distance`, `y = 2 * (radius - distance)`. -/
noncomputable def diamond (size : ℝ × ℝ) (radius depth distance : ℝ)
    (rotation : (ℝ × ℝ × ℝ) × (ℝ × ℝ × ℝ) × ℝ) (translation : ℝ × ℝ × ℝ)
    (invert : Bool) : Shape :=
  let disk := Shape.extrude (Shape.circle radius) depth
  let cdisk := Shape.extrude (Shape.circle (radius - distance)) depth
  let disks := Shape.union (Shape.union (Shape.union
    (Shape.translate disk (radius, radius, 0))
    (Shape.translate disk (-radius, radius, 0)))
    (Shape.translate disk (-radius, -radius, 0)))
    (Shape.translate disk (radius, -radius, 0))
  let motif := Shape.cut cdisk disks
  let result := create_pattern motif size depth (radius - distance)
    (2 * (radius - distance)) true invert
  let result := Shape.rotate result rotation.1 rotation.2.1 rotation.2.2
  Shape.translate result translation

/-- Inner radius of the `star` motif (pattern.py line 165):
`inner_radius = radius * 0.4`. -/
noncomputable def inner_radius (radius : ℝ) : ℝ := radius * 0.4

/-- Vertex list of the `star` motif (pattern.py lines 166-177): ten
vertices alternating outer and inner radius at 36-degree steps, then the
first vertex appended again to close the loop. -/
noncomputable def star_points (radius : ℝ) : List (ℝ × ℝ) :=
  let outer_radius := radius
  let pts := (List.range 10).map (fun i : ℕ =>
    let r := if i % 2 = 0 then outer_radius else inner_radius radius
    let angle := (i : ℝ) * 36 * (Real.pi / 180)
    (r * Real.cos angle, r * Real.sin angle))
  pts ++ [pts.getD 0 (0, 0)]

/-- `star` builder (pattern.py lines 162-194): the closed star polyline
extruded and pre-rotated by 18°, tiled without odd-row shift at spacing
`2 * radius + distance` in both directions. -/
noncomputable def star (size : ℝ × ℝ) (radius depth distance : ℝ)
    (rotation : (ℝ × ℝ × ℝ) × (ℝ × ℝ × ℝ) × ℝ) (translation : ℝ × ℝ × ℝ)
    (invert : Bool) : Shape :=
  let motif := Shape.rotate
    (Shape.extrude (Shape.close (Shape.polyline (star_points radius))) depth)
    (0, 0, 0) (0, 0, 1) 18
  let result := create_pattern motif size depth (2 * radius + distance)
    (2 * radius + distance) false invert
  let result := Shape.rotate result rotation.1 rotation.2.1 rotation.2.2
  Shape.translate result translation

/-- `plus` builder (pattern.py lines 197-211): two perpendicular slots
unioned, tiled at `x = radius + radius / 4 + distance`,
`y = 2 * radius + distance` (source spells the length `legth`). -/
noncomputable def plus (size : ℝ × ℝ) (radius depth distance : ℝ)
    (rotation : (ℝ × ℝ × ℝ) × (ℝ × ℝ × ℝ) × ℝ) (translation : ℝ × ℝ × ℝ)
    (invert : Bool) : Shape :=
  let legth := 2 * radius
  let hslot := Shape.slot2D legth (legth / 4) 90
  let vslot := Shape.slot2D legth (legth / 4) 0
  let motif := Shape.union (Shape.extrude vslot depth) (Shape.extrude hslot depth)
  let result := create_pattern motif size depth (radius + radius / 4 + distance)
    (2 * radius + distance) true invert
  let result := Shape.rotate result rotation.1 rotation.2.1 rotation.2.2
  Shape.translate result translation

/-- `slot` builder (pattern.py lines 214-223): a single vertical slot,
tiled at `x = length / 4 + distance`, `y = 2 * radius + distance`. -/
noncomputable def slot (size : ℝ × ℝ) (radius depth distance : ℝ)
    (rotation : (ℝ × ℝ × ℝ) × (ℝ × ℝ × ℝ) × ℝ) (translation : ℝ × ℝ × ℝ)
    (invert : Bool) : Shape :=
  let length := 2 * radius
  let motif := Shape.extrude (Shape.slot2D length (length / 4) 90) depth
  let result := create_pattern motif size depth (length / 4 + distance)
    (2 * radius + distance) true invert
  let result := Shape.rotate result rotation.1 rotation.2.1 rotation.2.2
  Shape.translate result translation

/-- `square` builder (pattern.py lines 226-243): a box rotated 45° and
lifted by half its depth, tiled at `x = √2 * length / 2 + distance`,
`y = √2 * length + distance`. -/
noncomputable def square (size : ℝ × ℝ) (radius depth distance : ℝ)
    (rotation : (ℝ × ℝ × ℝ) × (ℝ × ℝ × ℝ) × ℝ) (translation : ℝ × ℝ × ℝ)
    (invert : Bool) : Shape :=
  let length := 2 * radius
  let motif := Shape.translate
    (Shape.rotate (Shape.box length length depth) (0, 0, 0) (0, 0, 1) 45)
    (0, 0, depth / 2)
  let result := create_pattern motif size depth (Real.sqrt 2 * length / 2 + distance)
    (Real.sqrt 2 * length + distance) true invert
  let result := Shape.rotate result rotation.1 rotation.2.1 rotation.2.2
  Shape.translate result translation

/-- `generate_pattern` (pattern.py lines 246-261): string-keyed dispatch
to the six builders; any other key raises
`ValueError("Invalid pattern type")`, modelled as `Except.error`. -/
noncomputable def generate_pattern (type : String) (size : ℝ × ℝ) (radius depth distance : ℝ)
    (rotation : (ℝ × ℝ × ℝ) × (ℝ × ℝ × ℝ) × ℝ) (translation : ℝ × ℝ × ℝ)
    (invert : Bool) : Except String Shape :=
  if type = "honeycomb" then
    Except.ok (honeycomb size radius depth distance rotation translation invert)
  else if type = "diamond" then
    Except.ok (diamond size radius depth distance rotation translation invert)
  else if type = "star" then
    Except.ok (star size radius depth distance rotation translation invert)
  else if type = "plus" then
    Except.ok (plus size radius depth distance rotation translation invert)
  else if type = "slot" then
    Except.ok (slot size radius depth distance rotation translation invert)
  else if type = "square" then
    Except.ok (square size radius depth distance rotation translation invert)
  else
    Except.error "Invalid pattern type"

end Builders

/-- C1 counterexample: at bounding width `W = 10` and spacing `sx = 5`
(spacing divides the width) the generated column count is `4`, which is
2 beyond `⌊W / sx⌋` but not equal to `⌈W / sx⌉ + 1 = 3`; the two
formulas of the claim disagree on the code here. -/
theorem cols_ceil_formula_counterexample :
    cols (10 : ℚ) 5 = 4 ∧ ⌈(10 : ℚ) / 5⌉ + 1 = 3 ∧ cols (10 : ℚ) 5 ≠ ⌈(10 : ℚ) / 5⌉ + 1 := by
  norm_num [cols]

/-- C1 (amended): for positive bounds and spacing the raw lattice of
`create_pattern` has exactly `⌊W / sx⌋ + 2` columns and `⌊H / sy⌋ + 2`
rows — two extra beyond the integer quotient — and this equals
`⌈W / sx⌉ + 1` (resp. `⌈H / sy⌉ + 1`) exactly when the spacing does not
divide the bound; the emitted point list has `cols * rows` entries. -/
theorem cols_rows_two_beyond_quotient (W H sx sy : ℚ)
    (hW : 0 < W) (hH : 0 < H) (hsx : 0 < sx) (hsy : 0 < sy) :
    cols W sx = ⌊W / sx⌋ + 2 ∧ rows H sy = ⌊H / sy⌋ + 2
    ∧ (W / sx ≠ (⌊W / sx⌋ : ℚ) → cols W sx = ⌈W / sx⌉ + 1)
    ∧ (H / sy ≠ (⌊H / sy⌋ : ℚ) → rows H sy = ⌈H / sy⌉ + 1)
    ∧ ∀ sh : Bool, ((raw_points W H sx sy sh).length : ℤ) = cols W sx * rows H sy := by
  have hceil : ∀ x : ℚ, x ≠ (⌊x⌋ : ℚ) → ⌈x⌉ = ⌊x⌋ + 1 := by
    intro x hx
    have h1 : ⌈x⌉ ≤ ⌊x⌋ + 1 := Int.ceil_le_floor_add_one x
    have h2 : ⌊x⌋ < ⌈x⌉ := by
      rw [Int.lt_ceil]
      exact lt_of_le_of_ne (Int.floor_le x) (fun h => hx h.symm)
    omega
  refine ⟨rfl, rfl, ?_, ?_, ?_⟩
  · intro hx
    unfold cols
    rw [hceil _ hx]
    ring
  · intro hy
    unfold rows
    rw [hceil _ hy]
    ring
  · intro sh
    rw [raw_points_length]
    have hc : 2 ≤ cols W sx := cols_nonneg_bound W sx (le_of_lt hW) hsx
    have hr : 2 ≤ rows H sy := cols_nonneg_bound H sy (le_of_lt hH) hsy
    push_cast
    rw [Int.toNat_of_nonneg (by omega), Int.toNat_of_nonneg (by omega)]

/-- C1 witness: at `W = 7, H = 5, sx = sy = 2` (no exact division) the
column count is `⌈7/2⌉ + 1` and the row count is `⌊5/2⌋ + 2`. -/
theorem cols_rows_two_beyond_quotient_witness :
    cols (7 : ℚ) 2 = ⌈(7 : ℚ) / 2⌉ + 1 ∧ rows (5 : ℚ) 2 = ⌊(5 : ℚ) / 2⌋ + 2 :=
  ⟨(cols_rows_two_beyond_quotient 7 5 2 2 (by norm_num) (by norm_num) (by norm_num)
      (by norm_num)).2.2.1 (by norm_num),
   (cols_rows_two_beyond_quotient 7 5 2 2 (by norm_num) (by norm_num) (by norm_num)
      (by norm_num)).2.1⟩

/-- C2: the raw point of `create_pattern` at column `col` and row `row`
(zero-based, flattened at list index `col * rows + row`) is
`(col * sx, row * sy)`, with `sy / 2` added to the y-coordinate exactly
when `col` is odd and `odd_row_shift` is set; the x-coordinate is never
shifted. -/
theorem raw_point_position (W H sx sy : ℚ) (sh : Bool) (col row : ℕ)
    (hcol : col < (cols W sx).toNat) (hrow : row < (rows H sy).toNat) :
    (raw_points W H sx sy sh).getD (col * (rows H sy).toNat + row) (0, 0)
      = ((col : ℚ) * sx,
         (row : ℚ) * sy + if col % 2 = 1 ∧ sh = true then sy / 2 else 0) := by
  unfold raw_points
  rw [flatten_getD_const _ (rows H sy).toNat (0, 0)
      (by
        intro l hl
        simp only [List.mem_map] at hl
        obtain ⟨c, _, rfl⟩ := hl
        simp [colBlock])
      col row (by simpa using hcol) hrow]
  have hmap : ((List.range (cols W sx).toNat).map
      (fun c => colBlock H sx sy sh c)).getD col []
      = colBlock H sx sy sh col := by
    rw [List.getD_eq_getElem?_getD, List.getElem?_map, List.getElem?_range hcol]
    rfl
  rw [hmap]
  have hblock : (colBlock H sx sy sh col).getD row (0, 0)
      = rawPoint sx sy sh col row := by
    unfold colBlock
    rw [List.getD_eq_getElem?_getD, List.getElem?_map, List.getElem?_range hrow]
    rfl
  rw [hblock]
  unfold rawPoint
  by_cases h : col % 2 = 1 ∧ sh = true
  · simp [h]
  · simp [h]

/-- C2 witness: at `W = H = 3`, `sx = sy = 1`, shift on, column 1 row 0
(list index `1 * 5 + 0`), the emitted raw point is `(1, 1/2)`. -/
theorem raw_point_position_witness :
    (raw_points (3 : ℚ) 3 1 1 true).getD (1 * (rows (3 : ℚ) 1).toNat + 0) (0, 0)
      = (1, 1 / 2) := by
  have h := raw_point_position 3 3 1 1 true 1 0
    (by norm_num [cols]) (by norm_num [rows])
  norm_num at h
  norm_num [h]

/-- C3: for positive bounds, positive spacing and either shift flag, the
arithmetic mean of the centered placement points of `create_pattern` is
exactly `(0, 0)` in exact arithmetic, on every call. -/
theorem centered_centroid_zero (W H sx sy : ℚ) (sh : Bool)
    (hW : 0 < W) (hH : 0 < H) (hsx : 0 < sx) (hsy : 0 < sy) :
    centroid (centered_points W H sx sy sh) = (0, 0) := by
  have hlen : (raw_points W H sx sy sh).length ≠ 0 := by
    rw [raw_points_length]
    have hc : 2 ≤ cols W sx := cols_nonneg_bound W sx (le_of_lt hW) hsx
    have hr : 2 ≤ rows H sy := cols_nonneg_bound H sy (le_of_lt hH) hsy
    have hc2 : 2 ≤ (cols W sx).toNat := (Int.le_toNat (by omega)).mpr (by exact_mod_cast hc)
    have hr2 : 2 ≤ (rows H sy).toNat := (Int.le_toNat (by omega)).mpr (by exact_mod_cast hr)
    positivity
  set pts := raw_points W H sx sy sh with hpts
  have hn : ((pts.length : ℚ)) ≠ 0 := by exact_mod_cast hlen
  have h1 : ∀ l : List ℚ, (l.length : ℚ) ≠ 0 →
      (l.map (fun x => x - l.sum / l.length)).sum = 0 := by
    intro l hl
    rw [sum_map_sub_const, mul_div_cancel₀ _ hl, sub_self]
  unfold centroid centered_points avg_x avg_y
  rw [← hpts]
  simp only [List.map_map, List.length_map, Function.comp_def]
  rw [Prod.mk.injEq]
  constructor
  · have e1 : pts.map (fun x : ℚ × ℚ => x.1 - (pts.map Prod.fst).sum / pts.length)
        = (pts.map Prod.fst).map
            (fun x => x - (pts.map Prod.fst).sum / (pts.map Prod.fst).length) := by
      rw [List.map_map]
      simp [Function.comp_def, List.length_map]
    rw [e1, h1 _ (by simpa using hn)]
    exact zero_div _
  · have e2 : pts.map (fun x : ℚ × ℚ => x.2 - (pts.map Prod.snd).sum / pts.length)
        = (pts.map Prod.snd).map
            (fun x => x - (pts.map Prod.snd).sum / (pts.map Prod.snd).length) := by
      rw [List.map_map]
      simp [Function.comp_def, List.length_map]
    rw [e2, h1 _ (by simpa using hn)]
    exact zero_div _

/-- C3 witness: at `W = H = 1`, `sx = sy = 1`, shift on, the centroid of
the centered placement points is `(0, 0)`. -/
theorem centered_centroid_zero_witness :
    centroid (centered_points (1 : ℚ) 1 1 1 true) = (0, 0) :=
  centered_centroid_zero 1 1 1 1 true (by norm_num) (by norm_num) (by norm_num) (by norm_num)

/-- C5: for nonnegative bounds and positive spacing the pre-centering
lattice of `create_pattern` has at least `⌈W / sx⌉` columns and
`⌈H / sy⌉` rows, and — even when the spacing exceeds the bounds — always
at least the 2 columns and 2 rows implied by the `+2` rule, so the point
list is never empty. -/
theorem lattice_coverage (W H sx sy : ℚ)
    (hW : 0 ≤ W) (hH : 0 ≤ H) (hsx : 0 < sx) (hsy : 0 < sy) :
    ⌈W / sx⌉ ≤ cols W sx ∧ ⌈H / sy⌉ ≤ rows H sy
    ∧ 2 ≤ cols W sx ∧ 2 ≤ rows H sy
    ∧ ∀ sh : Bool, raw_points W H sx sy sh ≠ [] := by
  have hc : 2 ≤ cols W sx := cols_nonneg_bound W sx hW hsx
  have hr : 2 ≤ rows H sy := cols_nonneg_bound H sy hH hsy
  refine ⟨?_, ?_, hc, hr, ?_⟩
  · have := Int.ceil_le_floor_add_one (W / sx)
    unfold cols
    omega
  · have := Int.ceil_le_floor_add_one (H / sy)
    unfold rows
    omega
  · intro sh
    have hlen : (raw_points W H sx sy sh).length ≠ 0 := by
      rw [raw_points_length]
      have hc2 : 2 ≤ (cols W sx).toNat := (Int.le_toNat (by omega)).mpr (by exact_mod_cast hc)
      have hr2 : 2 ≤ (rows H sy).toNat := (Int.le_toNat (by omega)).mpr (by exact_mod_cast hr)
      positivity
    exact fun hnil => hlen (by rw [hnil]; rfl)

/-- C5 witness: at `W = H = 1` with spacing `sx = 5, sy = 7` larger than
the bounds, the generator still has `⌈1/5⌉ = 1 ≤ cols` and 2 columns and
rows, and emits a non-empty point list. -/
theorem lattice_coverage_witness :
    ⌈(1 : ℚ) / 5⌉ ≤ cols (1 : ℚ) 5 ∧ ⌈(1 : ℚ) / 7⌉ ≤ rows (1 : ℚ) 7
    ∧ 2 ≤ cols (1 : ℚ) 5 ∧ 2 ≤ rows (1 : ℚ) 7
    ∧ ∀ sh : Bool, raw_points (1 : ℚ) 1 5 7 sh ≠ [] :=
  lattice_coverage 1 1 5 7 (by norm_num) (by norm_num) (by norm_num) (by norm_num)

/-- C7 evidence: on a degenerate call that makes the lattice empty
(width `-3`, so `cols = -1` and the loop emits nothing), `create_pattern`
reaches the centroid division with an empty list: in the exact-arithmetic
model the junk value `0 / 0 = 0` is produced and the call continues with
a garbage centroid `(0, 0)` — no explicit, documented error is raised
(Python instead dies with an undocumented `ZeroDivisionError` at
line 48). -/
theorem empty_lattice_silent_garbage_centroid :
    raw_points (-3 : ℚ) 5 1 1 true = []
    ∧ centered_points (-3 : ℚ) 5 1 1 true = []
    ∧ centroid (raw_points (-3 : ℚ) 5 1 1 true) = (0, 0) := by
  have hc : (cols (-3 : ℚ) 1).toNat = 0 := by norm_num [cols]
  have hraw : raw_points (-3 : ℚ) 5 1 1 true = [] := by
    simp [raw_points, hc]
  exact ⟨hraw, by simp [centered_points, hraw], by simp [hraw, centroid, avg_x, avg_y]⟩

/-- C10: for positive bounds and spacing, the raw point list of
`create_pattern` has exactly `(⌊W/sx⌋ + 2) * (⌊H/sy⌋ + 2)` entries, hence
at least 4, so it is never empty and the centroid division by its length
is well-defined (the division-by-zero case is unreachable). -/
theorem raw_points_count (W H sx sy : ℚ) (sh : Bool)
    (hW : 0 < W) (hH : 0 < H) (hsx : 0 < sx) (hsy : 0 < sy) :
    ((raw_points W H sx sy sh).length : ℤ) = (⌊W / sx⌋ + 2) * (⌊H / sy⌋ + 2)
    ∧ 4 ≤ (raw_points W H sx sy sh).length
    ∧ (raw_points W H sx sy sh).length ≠ 0 := by
  have hc : 2 ≤ cols W sx := cols_nonneg_bound W sx (le_of_lt hW) hsx
  have hr : 2 ≤ rows H sy := cols_nonneg_bound H sy (le_of_lt hH) hsy
  have hc2 : 2 ≤ (cols W sx).toNat := (Int.le_toNat (by omega)).mpr (by exact_mod_cast hc)
  have hr2 : 2 ≤ (rows H sy).toNat := (Int.le_toNat (by omega)).mpr (by exact_mod_cast hr)
  have hlen := raw_points_length W H sx sy sh
  refine ⟨?_, ?_, ?_⟩
  · rw [hlen]
    push_cast
    rw [Int.toNat_of_nonneg (by omega), Int.toNat_of_nonneg (by omega)]
    rfl
  · rw [hlen]
    calc 4 = 2 * 2 := rfl
    _ ≤ (cols W sx).toNat * (rows H sy).toNat := Nat.mul_le_mul hc2 hr2
  · rw [hlen]
    positivity

/-- C10 witness: at `W = H = sx = sy = 1` the raw point list has
`(1 + 2) * (1 + 2) = 9` entries, at least 4, and is non-empty. -/
theorem raw_points_count_witness :
    ((raw_points (1 : ℚ) 1 1 1 true).length : ℤ) = (⌊(1 : ℚ) / 1⌋ + 2) * (⌊(1 : ℚ) / 1⌋ + 2)
    ∧ 4 ≤ (raw_points (1 : ℚ) 1 1 1 true).length
    ∧ (raw_points (1 : ℚ) 1 1 1 true).length ≠ 0 :=
  raw_points_count 1 1 1 1 true (by norm_num) (by norm_num) (by norm_num) (by norm_num)

/-- C4: for any motif, any non-empty placement list and any clip frame,
the inverted result (`frame.cut(placed)`) and the normal result
(`frame.intersect(placed)`) of the combine step of `create_pattern` are
complementary regions of the frame: their union is exactly the frame and
they are disjoint. -/
theorem combine_invert_duality (motif : Set (ℝ × ℝ × ℝ)) (points : List (ℝ × ℝ))
    (cut_frame : Set (ℝ × ℝ × ℝ)) (_hpts : points ≠ []) :
    place_and_combine motif points cut_frame true
        ∪ place_and_combine motif points cut_frame false = cut_frame
    ∧ Disjoint (place_and_combine motif points cut_frame true)
        (place_and_combine motif points cut_frame false) := by
  have h1 : place_and_combine motif points cut_frame true
      = cut_frame \ placedUnion motif points := rfl
  have h2 : place_and_combine motif points cut_frame false
      = cut_frame ∩ placedUnion motif points := rfl
  rw [h1, h2]
  exact ⟨Set.diff_union_inter cut_frame (placedUnion motif points),
    Set.disjoint_left.mpr (fun q hq hq2 => hq.2 hq2.2)⟩

/-- C4 witness: with the universal motif, the single placement `(0, 0)`
and a half-space frame, the two combine results partition the frame. -/
theorem combine_invert_duality_witness :
    place_and_combine Set.univ [(0, 0)] { q : ℝ × ℝ × ℝ | q.1 ≤ 1 } true
        ∪ place_and_combine Set.univ [(0, 0)] { q : ℝ × ℝ × ℝ | q.1 ≤ 1 } false
        = { q : ℝ × ℝ × ℝ | q.1 ≤ 1 }
    ∧ Disjoint (place_and_combine Set.univ [(0, 0)] { q : ℝ × ℝ × ℝ | q.1 ≤ 1 } true)
        (place_and_combine Set.univ [(0, 0)] { q : ℝ × ℝ × ℝ | q.1 ≤ 1 } false) :=
  combine_invert_duality Set.univ [(0, 0)] { q : ℝ × ℝ × ℝ | q.1 ≤ 1 }
    (List.cons_ne_nil _ _)

/-- C6: calling `generate_pattern` with a key other than the six
supported names returns the explicit `Invalid pattern type` error — no
partial result and no silent fallback to a default builder, for every
combination of the remaining arguments. -/
theorem generate_pattern_invalid_key (type : String)
    (h : type ∉ ["honeycomb", "diamond", "star", "plus", "slot", "square"])
    (size : ℝ × ℝ) (radius depth distance : ℝ)
    (rotation : (ℝ × ℝ × ℝ) × (ℝ × ℝ × ℝ) × ℝ) (translation : ℝ × ℝ × ℝ)
    (invert : Bool) :
    generate_pattern type size radius depth distance rotation translation invert
      = Except.error "Invalid pattern type" := by
  simp only [List.mem_cons, List.not_mem_nil, or_false, not_or] at h
  obtain ⟨h1, h2, h3, h4, h5, h6⟩ := h
  simp [generate_pattern, h1, h2, h3, h4, h5, h6]

/-- C6 witness: the unsupported key `"hexagram"` fails with the explicit
invalid-argument error. -/
theorem generate_pattern_invalid_key_witness :
    generate_pattern "hexagram" (50, 50) 5 1 1 ((0, 0, 0), (0, 0, 1), 0) (0, 0, 0) false
      = Except.error "Invalid pattern type" :=
  generate_pattern_invalid_key "hexagram" (by decide) (50, 50) 5 1 1
    ((0, 0, 0), (0, 0, 1), 0) (0, 0, 0) false

/-- C8: the `honeycomb` builder hands the tiler the lattice spacing
`x = 1.5 * radius` and `y = √3 * radius`; at `radius = 2.5` these are
exactly `3.75` and `√3 * 2.5`, and — as the universal quantification
over `distance` shows — the spacing does not depend on the `distance`
parameter (only the motif does). -/
theorem honeycomb_spacing_values :
    honeycomb_x_space 2.5 = 3.75
    ∧ honeycomb_y_space 2.5 = Real.sqrt 3 * 2.5
    ∧ ∀ (size : ℝ × ℝ) (depth distance : ℝ)
        (rotation : (ℝ × ℝ × ℝ) × (ℝ × ℝ × ℝ) × ℝ) (translation : ℝ × ℝ × ℝ)
        (invert : Bool),
        honeycomb size 2.5 depth distance rotation translation invert
          = Shape.translate (Shape.rotate
              (create_pattern (honeycomb_motif 2.5 depth distance) size depth
                3.75 (Real.sqrt 3 * 2.5) true invert)
              rotation.1 rotation.2.1 rotation.2.2) translation := by
  have hx : honeycomb_x_space 2.5 = 3.75 := by norm_num [honeycomb_x_space]
  have hy : honeycomb_y_space 2.5 = Real.sqrt 3 * 2.5 := rfl
  refine ⟨hx, hy, ?_⟩
  intro size depth distance rotation translation invert
  unfold honeycomb
  rw [hx, hy]

/-- C9: in the `star` builder the inner radius is exactly `0.4` times the
outer radius (`2` at `radius = 5`), and the motif polyline has exactly
ten vertices alternating between outer and inner radius at 36-degree
steps, plus one closing point equal to the first vertex. -/
theorem star_motif_structure :
    inner_radius 5 = 2
    ∧ (star_points 5).length = 11
    ∧ (∀ i : Fin 10, (star_points 5).getD i (0, 0)
        = ((if (i : ℕ) % 2 = 0 then (5 : ℝ) else 2)
              * Real.cos (((i : ℕ) : ℝ) * 36 * (Real.pi / 180)),
           (if (i : ℕ) % 2 = 0 then (5 : ℝ) else 2)
              * Real.sin (((i : ℕ) : ℝ) * 36 * (Real.pi / 180))))
    ∧ (star_points 5).getD 10 (0, 0) = (star_points 5).getD 0 (0, 0) := by
  have hinner : inner_radius 5 = 2 := by norm_num [inner_radius]
  refine ⟨hinner, ?_, ?_, ?_⟩
  · simp [star_points]
  · intro i
    fin_cases i <;> simp [star_points, hinner, List.range_succ]
  · simp [star_points, List.range_succ]

end PDesigns
